import Mathlib

/-!
Shallow embedding of the gsm stash-manager core: the application state and
its methods (src/gsm/app.rs), the modal input dispatcher (src/gsm/events.rs),
and the stash-message parsing helpers of the gateway module (src/src/git.rs).
Rust strings are modelled as Lean `String` (or `List Char` for the parsing
primitives); fallible operations return `Except String`, the error being the
human-readable description carried by the Rust error value.  The external
gateway (subprocess calls into git) is modelled as a record of responses,
one per gateway function, supplied to each dispatcher step.
-/

/-! ### Rust `str` primitives over `List Char` (used by the git.rs parsing) -/

/-- `s.starts_with(p)` on Rust strings, over char lists. -/
def startsWithL : List Char → List Char → Bool
  | _, [] => true
  | [], _ :: _ => false
  | x :: xs, y :: ys => x = y && startsWithL xs ys

/-- `s.contains(pat)` on Rust strings (substring search), over char lists:
`containsSubL pat s` is true iff `pat` occurs contiguously in `s`. -/
def containsSubL (pat : List Char) : List Char → Bool
  | [] => startsWithL [] pat
  | c :: cs => startsWithL (c :: cs) pat || containsSubL pat cs

/-- Rust `s.contains(&q)` lifted to Lean strings: `q` occurs in `s`. -/
def strContains (s q : String) : Bool :=
  containsSubL q.toList s.toList

/-- Rust `s.strip_prefix(p)`: `some` suffix when `p` is a prefix of `s`. -/
def stripPre : List Char → List Char → Option (List Char)
  | [], s => some s
  | _ :: _, [] => none
  | y :: ys, x :: xs => if x = y then stripPre ys xs else none

/-- Rust `s.split(c).next().unwrap()`: the part of `s` before the first `c`
(all of `s` when `c` does not occur). -/
def splitFirst (c : Char) : List Char → List Char
  | [] => []
  | x :: xs => if x = c then [] else x :: splitFirst c xs

/-- Rust `s.trim()`: drop leading and trailing whitespace. -/
def trimL (s : List Char) : List Char :=
  ((s.dropWhile Char.isWhitespace).reverse.dropWhile Char.isWhitespace).reverse

/-- The chars of the Rust literal `"WIP on "`. -/
def wipPre : List Char := ['W', 'I', 'P', ' ', 'o', 'n', ' ']

/-- The chars of the Rust literal `"On "`. -/
def onPre : List Char := ['O', 'n', ' ']

/-- The chars of the Rust literal `"unknown"`. -/
def unknownBranch : List Char := ['u', 'n', 'k', 'n', 'o', 'w', 'n']

/-- Branch extraction from a stash message (src/src/git.rs, list_stashes):
if the message starts with `"WIP on "` (resp. `"On "`), the text after that
marker and before the first colon, trimmed; otherwise `"unknown"`. -/
def extractBranchL (message : List Char) : List Char :=
  match stripPre wipPre message with
  | some s => trimL (splitFirst ':' s)
  | none =>
    match stripPre onPre message with
    | some s => trimL (splitFirst ':' s)
    | none => unknownBranch

/-- Rust `message.splitn(2, ": ").nth(1)`: the part of the message after the
first occurrence of `": "`, or `none` when that separator does not occur. -/
def afterSep : List Char → Option (List Char)
  | [] => none
  | c :: cs =>
    if startsWithL (c :: cs) (':' :: ' ' :: []) then some (cs.drop 1)
    else afterSep cs

/-- Short-message extraction (src/src/git.rs, list_stashes): the part after
the first `": "`, or the whole message when there is none. -/
def shortMsgL (message : List Char) : List Char :=
  match afterSep message with
  | some rest => rest
  | none => message

/-- Rust `char::to_lowercase` as used on the ASCII content the program
handles, lifted over a whole string. -/
def toLowerS (s : String) : String :=
  String.mk (s.toList.map Char.toLower)

/-- Rust `String::pop`: remove the last character (no-op when empty). -/
def strPop (s : String) : String :=
  String.mk s.toList.dropLast

/-- Rust `str::trim` lifted to Lean strings. -/
def trimS (s : String) : String :=
  String.mk (trimL s.toList)

/-- The newline chunks of Rust `str::lines()`: split at each newline, the
final chunk kept only when non-empty (no trailing empty line). -/
def linesL : List Char → List (List Char)
  | [] => []
  | c :: cs =>
    if c = '\n' then [] :: linesL cs
    else
      match linesL cs with
      | [] => [[c]]
      | l :: ls => (c :: l) :: ls

/-- Rust `str::lines()`: newline-separated lines, a trailing carriage return
stripped from each. -/
def rustLines (s : String) : List String :=
  (linesL s.toList).map (fun l => String.mk (if l.getLast? = some '\r' then l.dropLast else l))

/-! ### Data model (src/gsm/app.rs, src/src/git.rs) -/

/-- `git::Stash` (src/src/git.rs). -/
structure Stash where
  index : Nat
  name : String
  message : String
  branch : String
  short_msg : String
  date : String
deriving DecidableEq

/-- `app::ConfirmAction` (src/gsm/app.rs). -/
inductive ConfirmAction
  | Drop
  | Pop
  | Apply
deriving DecidableEq

/-- `app::Mode` (src/gsm/app.rs). -/
inductive Mode
  | Normal
  | Diff
  | Files
  | Confirm (action : ConfirmAction)
  | NewStash
  | Message (text : String)
deriving DecidableEq

/-- `app::App` (src/gsm/app.rs). -/
structure App where
  stashes : List Stash
  selected : Nat
  mode : Mode
  diff_content : List String
  diff_scroll : Nat
  search_query : String
  searching : Bool
  new_stash_input : String
  new_stash_untracked : Bool
  status_msg : Option String
  current_branch : String
deriving DecidableEq

/-- The gateway (src/src/git.rs seen through its callers): the responses the
external git subprocess would give to each call during one dispatcher step. -/
structure Gateway where
  list_stashes : Except String (List Stash)
  current_branch : Except String String
  stash_diff : String → Except String String
  stash_files : String → Except String String
  apply_stash : String → Except String String
  pop_stash : String → Except String String
  drop_stash : String → Except String Unit
  push_stash : String → Bool → Except String Unit

/-- The crossterm key codes the dispatcher distinguishes; `Other` stands for
every remaining code (all of them fall into the wildcard arms). -/
inductive KeyCode
  | Char (c : Char)
  | Esc
  | Enter
  | Backspace
  | Up
  | Down
  | Delete
  | Tab
  | PageUp
  | PageDown
  | Other
deriving DecidableEq

/-- Crossterm key modifier flags. -/
structure KeyModifiers where
  shift : Bool
  control : Bool
  alt : Bool
deriving DecidableEq

/-- A crossterm key event: a code plus modifier flags. -/
structure KeyEvent where
  code : KeyCode
  modifiers : KeyModifiers
deriving DecidableEq

/-! ### Application-state methods (src/gsm/app.rs) -/

/-- The search predicate of `App::filtered_stashes`: the lowercased short
message or lowercased branch contains the (already lowercased) query. -/
def stash_matches (q : String) (s : Stash) : Bool :=
  strContains (toLowerS s.short_msg) q || strContains (toLowerS s.branch) q

/-- `App::filtered_stashes` (src/gsm/app.rs): all stashes when the query is
empty, else those matching the lowercased query. -/
def filtered_stashes (app : App) : List Stash :=
  if app.search_query = "" then app.stashes
  else app.stashes.filter (stash_matches (toLowerS app.search_query))

/-- `App::selected_stash` (src/gsm/app.rs): the record of the filtered view
at index `selected`, when in range. -/
def selected_stash (app : App) : Option Stash :=
  (filtered_stashes app)[app.selected]?

/-- `git::current_branch().unwrap_or_default()`: a branch-query failure is
swallowed to the empty string. -/
def gwBranch (gw : Gateway) : String :=
  match gw.current_branch with
  | .ok b => b
  | .error _ => ""

/-- `App::new` (src/gsm/app.rs): initial state from a fresh stash listing. -/
def App.new (gw : Gateway) : Except String App :=
  match gw.list_stashes with
  | .error e => .error e
  | .ok stashes =>
    .ok { stashes := stashes
          selected := 0
          mode := Mode.Normal
          diff_content := []
          diff_scroll := 0
          search_query := ""
          searching := false
          new_stash_input := ""
          new_stash_untracked := false
          status_msg := none
          current_branch := gwBranch gw }

/-- `App::reload` (src/gsm/app.rs): replace the collection and the current
branch, then clamp `selected` to `len - 1` when it is out of bounds and the
new collection is non-empty.  A listing failure aborts before any change. -/
def reload (gw : Gateway) (app : App) : Except String App :=
  match gw.list_stashes with
  | .error e => .error e
  | .ok l =>
    if l.length ≤ app.selected ∧ l ≠ [] then
      .ok { app with stashes := l, current_branch := gwBranch gw, selected := l.length - 1 }
    else
      .ok { app with stashes := l, current_branch := gwBranch gw }

/-- The fetch step of `App::load_diff`: store the fetched text as lines and
reset the scroll, or report the fetch failure. -/
def load_diff_fetch (gw : Gateway) (app : App) (stash_name : String) : Except String App :=
  match gw.stash_diff stash_name with
  | .ok raw => .ok { app with diff_content := rustLines raw, diff_scroll := 0 }
  | .error e => .error e

/-- `App::load_diff` (src/gsm/app.rs): fetch the diff text of the selected
stash, split into lines, reset the scroll; no-op without a selection. -/
def load_diff (gw : Gateway) (app : App) : Except String App :=
  match selected_stash app with
  | some stash => load_diff_fetch gw app stash.name
  | none => .ok app

/-- The fetch step of `App::load_files`, as `load_diff_fetch`. -/
def load_files_fetch (gw : Gateway) (app : App) (stash_name : String) : Except String App :=
  match gw.stash_files stash_name with
  | .ok raw => .ok { app with diff_content := rustLines raw, diff_scroll := 0 }
  | .error e => .error e

/-- `App::load_files` (src/gsm/app.rs): as `load_diff` with the file-stat
text. -/
def load_files (gw : Gateway) (app : App) : Except String App :=
  match selected_stash app with
  | some stash => load_files_fetch gw app stash.name
  | none => .ok app

/-- `App::move_up` (src/gsm/app.rs): decrement `selected` when positive. -/
def move_up (app : App) : App :=
  if 0 < app.selected then { app with selected := app.selected - 1 } else app

/-- `App::move_down` (src/gsm/app.rs): increment `selected` when strictly
below the last index of the filtered view. -/
def move_down (app : App) : App :=
  if 0 < (filtered_stashes app).length ∧ app.selected < (filtered_stashes app).length - 1 then
    { app with selected := app.selected + 1 }
  else app

/-- `App::scroll_diff_up` (src/gsm/app.rs). -/
def scroll_diff_up (app : App) : App :=
  if 0 < app.diff_scroll then { app with diff_scroll := app.diff_scroll - 1 } else app

/-- `App::scroll_diff_down` (src/gsm/app.rs): increment only while
`diff_scroll + 1` is below the buffer length. -/
def scroll_diff_down (app : App) : App :=
  if app.diff_scroll + 1 < app.diff_content.length then
    { app with diff_scroll := app.diff_scroll + 1 }
  else app

/-! ### Input dispatcher (src/gsm/events.rs) -/

/-- A single-quote character, for the messages built with Rust `format!`. -/
def squote : String := String.singleton (Char.ofNat 39)

/-- The search-entry match at the top of `events::handle_normal`: Escape
clears and leaves search, Enter commits, Backspace pops a character, any
character is appended; editing resets the selection to the top. -/
def search_entry_key (app : App) (key : KeyCode) : App :=
  match key with
  | KeyCode.Esc => { app with searching := false, search_query := "", selected := 0 }
  | KeyCode.Enter => { app with searching := false }
  | KeyCode.Backspace => { app with search_query := strPop app.search_query, selected := 0 }
  | KeyCode.Char c => { app with search_query := app.search_query.push c, selected := 0 }
  | _ => app

/-- The Enter/`d` arm of `events::handle_normal`: with a selection, load the
diff and enter Diff mode (a load failure propagates). -/
def view_diff (gw : Gateway) (app : App) : Except String (App × Bool) :=
  if (selected_stash app).isSome then
    match load_diff gw app with
    | .ok app2 => .ok ({ app2 with mode := Mode.Diff }, false)
    | .error e => .error e
  else .ok (app, false)

/-- The `f` arm of `events::handle_normal`: with a selection, load the file
list and enter Files mode (a load failure propagates). -/
def view_files (gw : Gateway) (app : App) : Except String (App × Bool) :=
  if (selected_stash app).isSome then
    match load_files gw app with
    | .ok app2 => .ok ({ app2 with mode := Mode.Files }, false)
    | .error e => .error e
  else .ok (app, false)

/-- The `a`/`p`/`x`/Delete arms of `events::handle_normal`: with a selection,
enter the confirmation mode for the given action. -/
def confirm_if_selected (app : App) (action : ConfirmAction) : App :=
  if (selected_stash app).isSome then { app with mode := Mode.Confirm action } else app

/-- The `n` arm of `events::handle_normal`: clear the form, enter NewStash. -/
def open_new_stash (app : App) : App :=
  { app with new_stash_input := "", new_stash_untracked := false, mode := Mode.NewStash }

/-- The `/` arm of `events::handle_normal`: clear the query, start search. -/
def start_search (app : App) : App :=
  { app with search_query := "", searching := true, selected := 0 }

/-- The `c` arm of `events::handle_normal`: clear the query. -/
def clear_search (app : App) : App :=
  { app with search_query := "", selected := 0 }

/-- The character arms of the non-searching match in `events::handle_normal`
(`q`, `k`, `j`, `d`, `f`, `a`, `p`, `x`, `n`, `/`, `c`); any other character
falls into the wildcard arm. -/
def normal_char (gw : Gateway) (app : App) (c : Char) : Except String (App × Bool) :=
  if c = 'q' then .ok (app, true)
  else if c = 'k' then .ok (move_up app, false)
  else if c = 'j' then .ok (move_down app, false)
  else if c = 'd' then view_diff gw app
  else if c = 'f' then view_files gw app
  else if c = 'a' then .ok (confirm_if_selected app ConfirmAction.Apply, false)
  else if c = 'p' then .ok (confirm_if_selected app ConfirmAction.Pop, false)
  else if c = 'x' then .ok (confirm_if_selected app ConfirmAction.Drop, false)
  else if c = 'n' then .ok (open_new_stash app, false)
  else if c = '/' then .ok (start_search app, false)
  else if c = 'c' then .ok (clear_search app, false)
  else .ok (app, false)

/-- `events::handle_normal` (src/gsm/events.rs): Normal-mode dispatch.  While
`searching`, keys edit the query; otherwise they navigate, open sub-views,
or signal quit (the returned Bool).  The match arms of the source are split
into one match on the key-code constructor and, for character keys, the
chain `normal_char` — the arm reached is the same one the source reaches. -/
def handle_normal (gw : Gateway) (app : App) (key : KeyCode) (_mods : KeyModifiers) :
    Except String (App × Bool) :=
  if app.searching then
    .ok (search_entry_key app key, false)
  else
    match key with
    | KeyCode.Char c => normal_char gw app c
    | KeyCode.Esc => .ok (app, true)
    | KeyCode.Up => .ok (move_up app, false)
    | KeyCode.Down => .ok (move_down app, false)
    | KeyCode.Enter => view_diff gw app
    | KeyCode.Delete => .ok (confirm_if_selected app ConfirmAction.Drop, false)
    | _ => .ok (app, false)

/-- The character arms of `events::handle_scroll` (`q`, `k`, `j`). -/
def scroll_char (app : App) (c : Char) : App :=
  if c = 'q' then { app with mode := Mode.Normal }
  else if c = 'k' then scroll_diff_up app
  else if c = 'j' then scroll_diff_down app
  else app

/-- `events::handle_scroll` (src/gsm/events.rs): Diff/Files-mode dispatch;
page keys apply twenty single-line steps. -/
def handle_scroll (app : App) (key : KeyCode) : Except String (App × Bool) :=
  match key with
  | KeyCode.Esc => .ok ({ app with mode := Mode.Normal }, false)
  | KeyCode.Char c => .ok (scroll_char app c, false)
  | KeyCode.Up => .ok (scroll_diff_up app, false)
  | KeyCode.Down => .ok (scroll_diff_down app, false)
  | KeyCode.PageUp => .ok (scroll_diff_up^[20] app, false)
  | KeyCode.PageDown => .ok (scroll_diff_down^[20] app, false)
  | _ => .ok (app, false)

/-- The `let result = match action` computation of `events::handle_confirm`:
the gateway mutation matching the confirmed action, mapped to its success
message. -/
def confirm_result (gw : Gateway) (action : ConfirmAction) (stash_name : String) :
    Except String String :=
  match action with
  | ConfirmAction.Apply => (gw.apply_stash stash_name).map (fun _ => "Stash applied successfully.")
  | ConfirmAction.Pop => (gw.pop_stash stash_name).map (fun _ => "Stash popped successfully.")
  | ConfirmAction.Drop => (gw.drop_stash stash_name).map (fun _ => "Stash dropped.")

/-- The `y`/Enter arm of `events::handle_confirm`: with a selection, run the
pending mutation — on success reload (a reload failure propagates) and show
the success message, on failure show the error message with the rest of the
state untouched; without a selection do nothing. -/
def confirm_run (gw : Gateway) (app : App) (action : ConfirmAction) (stash_name : String) :
    Except String (App × Bool) :=
  match confirm_result gw action stash_name with
  | .ok msg =>
    match reload gw app with
    | .ok app2 => .ok ({ app2 with mode := Mode.Message msg }, false)
    | .error e => .error e
  | .error e => .ok ({ app with mode := Mode.Message ("Error: " ++ e) }, false)

/-- See `confirm_run`: the `y`/Enter arm dispatches the pending mutation on
the name of the selected record, if any. -/
def confirm_yes (gw : Gateway) (app : App) (action : ConfirmAction) :
    Except String (App × Bool) :=
  match selected_stash app with
  | some stash => confirm_run gw app action stash.name
  | none => .ok (app, false)

/-- `events::handle_confirm` (src/gsm/events.rs): `y`/Enter confirms the
pending action, `n`/Escape returns to Normal without any gateway call. -/
def handle_confirm (gw : Gateway) (app : App) (key : KeyCode) (action : ConfirmAction) :
    Except String (App × Bool) :=
  match key with
  | KeyCode.Char c =>
    if c = 'y' then confirm_yes gw app action
    else if c = 'n' then .ok ({ app with mode := Mode.Normal }, false)
    else .ok (app, false)
  | KeyCode.Enter => confirm_yes gw app action
  | KeyCode.Esc => .ok ({ app with mode := Mode.Normal }, false)
  | _ => .ok (app, false)

/-- The Enter arm of `events::handle_new_stash`: create the stash from the
trimmed input when non-empty (success reloads, a reload failure propagates;
a create failure shows the error message); empty trimmed input is a no-op. -/
def submit_new_stash (gw : Gateway) (app : App) : Except String (App × Bool) :=
  if trimS app.new_stash_input = "" then .ok (app, false)
  else
    match gw.push_stash (trimS app.new_stash_input) app.new_stash_untracked with
    | .ok _ =>
      match reload gw app with
      | .ok app2 =>
        .ok ({ app2 with
               mode := Mode.Message ("Stash " ++ squote ++ trimS app.new_stash_input ++ squote ++ " created.") },
             false)
      | .error e => .error e
    | .error e => .ok ({ app with mode := Mode.Message ("Error: " ++ e) }, false)

/-- `events::handle_new_stash` (src/gsm/events.rs): the new-stash form.
The guarded `u` arm toggles the untracked flag only while the input is
empty; otherwise a character falls through to the append arm. -/
def handle_new_stash (gw : Gateway) (app : App) (key : KeyCode) :
    Except String (App × Bool) :=
  match key with
  | KeyCode.Esc => .ok ({ app with mode := Mode.Normal }, false)
  | KeyCode.Enter => submit_new_stash gw app
  | KeyCode.Backspace => .ok ({ app with new_stash_input := strPop app.new_stash_input }, false)
  | KeyCode.Char c =>
    if c = 'u' ∧ app.new_stash_input = "" then
      .ok ({ app with new_stash_untracked := !app.new_stash_untracked }, false)
    else
      .ok ({ app with new_stash_input := app.new_stash_input.push c }, false)
  | KeyCode.Tab => .ok ({ app with new_stash_untracked := !app.new_stash_untracked }, false)
  | _ => .ok (app, false)

/-- The mode match inside `events::handle_events` (src/gsm/events.rs):
per-mode dispatch of one key event; any key dismisses a message. -/
def dispatch (gw : Gateway) (app : App) (key : KeyEvent) : Except String (App × Bool) :=
  match app.mode with
  | Mode.Normal => handle_normal gw app key.code key.modifiers
  | Mode.Diff => handle_scroll app key.code
  | Mode.Files => handle_scroll app key.code
  | Mode.Confirm action => handle_confirm gw app key.code action
  | Mode.NewStash => handle_new_stash gw app key.code
  | Mode.Message _ => .ok ({ app with mode := Mode.Normal }, false)

/-- `events::handle_events` (src/gsm/events.rs) on an arrived key event: it
runs the per-mode handler, but its own result is the unconditional trailing
`Ok(false)` — the quit flag computed by the handler is discarded. -/
def handle_events (gw : Gateway) (app : App) (key : KeyEvent) : Except String (App × Bool) :=
  match dispatch gw app key with
  | .ok (app2, _quit) => .ok (app2, false)
  | .error e => .error e

/-- The states the event loop of `app::run` can be in: the initial state of
`App::new`, closed under dispatcher steps (each step against an arbitrary
gateway response set). -/
inductive Reachable : App → Prop
  | init (gw : Gateway) (app : App) : App.new gw = .ok app → Reachable app
  | step (gw : Gateway) (key : KeyEvent) (app app2 : App) (q : Bool) :
      Reachable app → handle_events gw app key = .ok (app2, q) → Reachable app2

/-! ### Concrete gateways and states used to evaluate the development -/

/-- A gateway whose every call fails (no git responses at all). -/
def noGw : Gateway :=
  { list_stashes := .error "no"
    current_branch := .error "no"
    stash_diff := fun _ => .error "no"
    stash_files := fun _ => .error "no"
    apply_stash := fun _ => .error "no"
    pop_stash := fun _ => .error "no"
    drop_stash := fun _ => .error "no"
    push_stash := fun _ _ => .error "no" }

/-- No modifier keys held. -/
def m0 : KeyModifiers := ⟨false, false, false⟩

/-- A sample stash record whose short message matches the query letter a. -/
def wS : Stash := ⟨0, "sW", "mW", "xx", "s", "dW"⟩

/-- A second sample stash record. -/
def wS2 : Stash := ⟨1, "sW2", "mW2", "xx", "t", "dW2"⟩

/-- A Normal-mode state holding the single stash `wS`, nothing loaded. -/
def baseApp : App := ⟨[wS], 0, Mode.Normal, [], 0, "", false, "", false, none, ""⟩

/-- `baseApp` with a pending new-stash input. -/
def nsApp : App := { baseApp with new_stash_input := "m" }

/-- Gateways that fail exactly one call with description `boom`. -/
def gwApplyFail : Gateway := { noGw with apply_stash := fun _ => .error "boom" }

/-- See `gwApplyFail`. -/
def gwPopFail : Gateway := { noGw with pop_stash := fun _ => .error "boom" }

/-- See `gwApplyFail`. -/
def gwDropBoom : Gateway := { noGw with drop_stash := fun _ => .error "boom" }

/-- See `gwApplyFail`. -/
def gwPushFail : Gateway := { noGw with push_stash := fun _ _ => .error "boom" }

/-- See `gwApplyFail`. -/
def gwDiffFail : Gateway := { noGw with stash_diff := fun _ => .error "boom" }

/-- See `gwApplyFail`. -/
def gwFilesFail : Gateway := { noGw with stash_files := fun _ => .error "boom" }

/-- A gateway whose drop succeeds but whose follow-up listing fails. -/
def gwReloadFail : Gateway := { noGw with drop_stash := fun _ => .ok () }

/-- A gateway whose drop fails with the description `not found`. -/
def gwDropFail : Gateway := { noGw with drop_stash := fun _ => .error "not found" }

/-- A gateway listing the single stash `wS`. -/
def gwListOne : Gateway :=
  { noGw with list_stashes := .ok [wS], current_branch := .ok "m" }

/-- A gateway listing no stashes at all. -/
def gwEmptyList : Gateway := { noGw with list_stashes := .ok [] }

/-- A state whose selection index is already past any collection. -/
def app5 : App := { baseApp with selected := 5 }

/-- The state `reload` produces from `app5` against `gwListOne`. -/
def app5After : App := { app5 with stashes := [wS], current_branch := "m", selected := 0 }

/-- A state with selection 3 about to reload into an empty collection. -/
def c4App : App := { baseApp with selected := 3 }

/-- The state `reload` produces from `c4App` against `gwEmptyList`. -/
def c4After : App := { c4App with stashes := [], current_branch := "" }

/-- An empty-collection state with a stale positive selection. -/
def c7App : App := { baseApp with stashes := [], selected := 5 }

/-- A two-stash state with the second record selected. -/
def c7wApp : App := { baseApp with stashes := [wS, wS2], selected := 1 }

/-- The stashes of the C3 counterexample scenario: before the drop, two
records whose short message contains the query letter. -/
def sA : Stash := ⟨0, "sA", "mA", "xx", "a", "d0"⟩

/-- See `sA`. -/
def sB : Stash := ⟨1, "sB", "mB", "xx", "a", "d1"⟩

/-- After the drop: a record not matching the query… -/
def tA : Stash := ⟨0, "tA", "mC", "xx", "b", "d2"⟩

/-- …and a record matching it. -/
def tB : Stash := ⟨1, "tB", "mD", "xx", "a", "d3"⟩

/-- The gateway backing the first six steps of the C3 scenario. -/
def gw1 : Gateway := { noGw with list_stashes := .ok [sA, sB], current_branch := .ok "m" }

/-- The gateway backing the confirmed drop of the C3 scenario. -/
def gw2 : Gateway :=
  { noGw with
    list_stashes := .ok [tA, tB]
    current_branch := .ok "m"
    drop_stash := fun _ => .ok () }

/-- The initial state of the C3 scenario (`App::new` against `gw1`). -/
def st0 : App := ⟨[sA, sB], 0, Mode.Normal, [], 0, "", false, "", false, none, "m"⟩

/-- After `/`: search entry active. -/
def st1 : App := { st0 with searching := true }

/-- After typing `a`: the query filters on the letter a. -/
def st2 : App := { st1 with search_query := "a" }

/-- After Enter: the query is committed. -/
def st3 : App := { st2 with searching := false }

/-- After `j`: the second filtered record is selected. -/
def st4 : App := { st3 with selected := 1 }

/-- After `x`: the drop confirmation is pending. -/
def st5 : App := { st4 with mode := Mode.Confirm ConfirmAction.Drop }

/-- After `y` against `gw2`: the drop succeeded and the collection was
reloaded; only one record still matches the query, yet `selected` is 1. -/
def st6 : App := { st5 with stashes := [tA, tB], mode := Mode.Message "Stash dropped." }

/-- A gateway serving a two-line diff for the single stash `wS`. -/
def gwD : Gateway :=
  { noGw with
    list_stashes := .ok [wS]
    stash_diff := fun _ => .ok "l1\nl2" }

/-- The initial state against `gwD`. -/
def dInit : App := ⟨[wS], 0, Mode.Normal, [], 0, "", false, "", false, none, ""⟩

/-- After `d` against `gwD`: the two-line diff is loaded. -/
def dView : App := { dInit with mode := Mode.Diff, diff_content := ["l1", "l2"] }

/-! ### The dispatcher invariant and its preservation lemmas -/

abbrev StateInv (app : App) : Prop :=
  (app.stashes ≠ [] → app.selected < app.stashes.length) ∧
  (app.diff_content = [] → app.diff_scroll = 0) ∧
  (app.diff_content ≠ [] → app.diff_scroll < app.diff_content.length)

theorem filtered_length_le (app : App) :
    (filtered_stashes app).length ≤ app.stashes.length := by
  unfold filtered_stashes
  split
  · exact Nat.le_refl _
  · exact List.length_filter_le _ _

theorem move_up_inv (app : App) (h : StateInv app) : StateInv (move_up app) := by
  obtain ⟨h1, h2, h3⟩ := h
  unfold move_up
  split
  · exact ⟨fun hne => Nat.lt_of_le_of_lt (Nat.sub_le _ _) (h1 hne), h2, h3⟩
  · exact ⟨h1, h2, h3⟩

theorem move_down_inv (app : App) (h : StateInv app) : StateInv (move_down app) := by
  obtain ⟨h1, h2, h3⟩ := h
  have hf := filtered_length_le app
  unfold move_down
  split
  · rename_i hc
    refine ⟨fun _ => ?_, h2, h3⟩
    show app.selected + 1 < app.stashes.length
    omega
  · exact ⟨h1, h2, h3⟩

theorem scroll_diff_up_inv (app : App) (h : StateInv app) : StateInv (scroll_diff_up app) := by
  obtain ⟨h1, h2, h3⟩ := h
  unfold scroll_diff_up
  split
  · rename_i hc
    refine ⟨h1, fun he => ?_, fun hne => ?_⟩
    · have hz := h2 he
      show app.diff_scroll - 1 = 0
      omega
    · have hlt := h3 hne
      show app.diff_scroll - 1 < app.diff_content.length
      omega
  · exact ⟨h1, h2, h3⟩

theorem scroll_diff_down_inv (app : App) (h : StateInv app) : StateInv (scroll_diff_down app) := by
  obtain ⟨h1, h2, h3⟩ := h
  unfold scroll_diff_down
  split
  · rename_i hc
    refine ⟨h1, fun he => ?_, fun hne => ?_⟩
    · exfalso
      have h0 : app.diff_content = [] := he
      rw [h0] at hc
      simp at hc
    · show app.diff_scroll + 1 < app.diff_content.length
      exact hc
  · exact ⟨h1, h2, h3⟩

theorem iterate_inv (f : App → App) (hf : ∀ a, StateInv a → StateInv (f a)) :
    ∀ (n : Nat) (a : App), StateInv a → StateInv (f^[n] a) := by
  intro n
  induction n with
  | zero => intro a h; simpa using h
  | succ k ih =>
    intro a h
    rw [Function.iterate_succ_apply]
    exact ih (f a) (hf a h)

theorem reload_ok_fields (gw : Gateway) (app app2 : App) (h : reload gw app = .ok app2) :
    (app2.stashes ≠ [] → app2.selected < app2.stashes.length) ∧
    app2.diff_content = app.diff_content ∧ app2.diff_scroll = app.diff_scroll ∧
    app2.search_query = app.search_query := by
  unfold reload at h
  split at h
  · cases h
  · rename_i l hl
    split at h
    · rename_i hcond
      injection h with h
      subst h
      refine ⟨fun hne => ?_, rfl, rfl, rfl⟩
      have hpos : 0 < l.length := List.length_pos.mpr hcond.2
      simpa using Nat.sub_lt hpos Nat.one_pos
    · rename_i hcond
      injection h with h
      subst h
      refine ⟨fun hne => ?_, rfl, rfl, rfl⟩
      have hne2 : l ≠ [] := hne
      have hlt : ¬ l.length ≤ app.selected := fun hA => hcond ⟨hA, hne2⟩
      simpa using Nat.lt_of_not_le hlt

theorem load_diff_fetch_inv (gw : Gateway) (app app2 : App) (nm : String)
    (h : load_diff_fetch gw app nm = .ok app2) (hinv : StateInv app) :
    StateInv app2 ∧ app2.stashes = app.stashes ∧ app2.selected = app.selected ∧
    app2.search_query = app.search_query := by
  obtain ⟨h1, h2, h3⟩ := hinv
  unfold load_diff_fetch at h
  split at h
  · injection h with h
    subst h
    exact ⟨⟨h1, fun _ => rfl, fun hne => List.length_pos.mpr hne⟩, rfl, rfl, rfl⟩
  · cases h

theorem load_diff_ok_inv (gw : Gateway) (app app2 : App) (h : load_diff gw app = .ok app2)
    (hinv : StateInv app) :
    StateInv app2 ∧ app2.stashes = app.stashes ∧ app2.selected = app.selected ∧
    app2.search_query = app.search_query := by
  unfold load_diff at h
  split at h
  · exact load_diff_fetch_inv gw app app2 _ h hinv
  · injection h with h
    subst h
    exact ⟨hinv, rfl, rfl, rfl⟩

theorem load_files_fetch_inv (gw : Gateway) (app app2 : App) (nm : String)
    (h : load_files_fetch gw app nm = .ok app2) (hinv : StateInv app) :
    StateInv app2 ∧ app2.stashes = app.stashes ∧ app2.selected = app.selected ∧
    app2.search_query = app.search_query := by
  obtain ⟨h1, h2, h3⟩ := hinv
  unfold load_files_fetch at h
  split at h
  · injection h with h
    subst h
    exact ⟨⟨h1, fun _ => rfl, fun hne => List.length_pos.mpr hne⟩, rfl, rfl, rfl⟩
  · cases h

theorem load_files_ok_inv (gw : Gateway) (app app2 : App) (h : load_files gw app = .ok app2)
    (hinv : StateInv app) :
    StateInv app2 ∧ app2.stashes = app.stashes ∧ app2.selected = app.selected ∧
    app2.search_query = app.search_query := by
  unfold load_files at h
  split at h
  · exact load_files_fetch_inv gw app app2 _ h hinv
  · injection h with h
    subst h
    exact ⟨hinv, rfl, rfl, rfl⟩

theorem search_entry_key_inv (app : App) (key : KeyCode) (h : StateInv app) :
    StateInv (search_entry_key app key) := by
  obtain ⟨h1, h2, h3⟩ := h
  unfold search_entry_key
  split <;>
    first
      | exact ⟨h1, h2, h3⟩
      | exact ⟨fun hne => List.length_pos.mpr hne, h2, h3⟩

theorem view_diff_ok_inv (gw : Gateway) (app app2 : App) (q : Bool)
    (h : view_diff gw app = .ok (app2, q)) (hinv : StateInv app) : StateInv app2 := by
  unfold view_diff at h
  split at h
  · split at h
    · rename_i a heq
      obtain ⟨rfl, rfl⟩ := Prod.mk.inj (Except.ok.inj h)
      exact (load_diff_ok_inv gw app a heq hinv).1
    · exact Except.noConfusion h
  · obtain ⟨rfl, rfl⟩ := Prod.mk.inj (Except.ok.inj h)
    exact hinv

theorem view_files_ok_inv (gw : Gateway) (app app2 : App) (q : Bool)
    (h : view_files gw app = .ok (app2, q)) (hinv : StateInv app) : StateInv app2 := by
  unfold view_files at h
  split at h
  · split at h
    · rename_i a heq
      obtain ⟨rfl, rfl⟩ := Prod.mk.inj (Except.ok.inj h)
      exact (load_files_ok_inv gw app a heq hinv).1
    · exact Except.noConfusion h
  · obtain ⟨rfl, rfl⟩ := Prod.mk.inj (Except.ok.inj h)
    exact hinv

theorem confirm_if_selected_inv (app : App) (action : ConfirmAction) (h : StateInv app) :
    StateInv (confirm_if_selected app action) := by
  obtain ⟨h1, h2, h3⟩ := h
  unfold confirm_if_selected
  split
  · exact ⟨h1, h2, h3⟩
  · exact ⟨h1, h2, h3⟩

theorem open_new_stash_inv (app : App) (h : StateInv app) : StateInv (open_new_stash app) := by
  obtain ⟨h1, h2, h3⟩ := h
  exact ⟨h1, h2, h3⟩

theorem start_search_inv (app : App) (h : StateInv app) : StateInv (start_search app) := by
  obtain ⟨h1, h2, h3⟩ := h
  exact ⟨fun hne => List.length_pos.mpr hne, h2, h3⟩

theorem clear_search_inv (app : App) (h : StateInv app) : StateInv (clear_search app) := by
  obtain ⟨h1, h2, h3⟩ := h
  exact ⟨fun hne => List.length_pos.mpr hne, h2, h3⟩

section InvariantProofs

attribute [local irreducible] search_entry_key view_diff view_files confirm_if_selected
attribute [local irreducible] open_new_stash start_search clear_search move_up move_down
attribute [local irreducible] scroll_diff_up scroll_diff_down load_diff load_files reload
attribute [local irreducible] selected_stash trimS strPop squote

set_option maxHeartbeats 1600000 in
theorem normal_char_inv (gw : Gateway) (app app2 : App) (c : Char) (q : Bool)
    (h : normal_char gw app c = .ok (app2, q)) (hinv : StateInv app) : StateInv app2 := by
  unfold normal_char at h
  repeat' split at h
  all_goals try exact view_diff_ok_inv gw app app2 q h hinv
  all_goals try exact view_files_ok_inv gw app app2 q h hinv
  all_goals obtain ⟨rfl, rfl⟩ := Prod.mk.inj (Except.ok.inj h)
  all_goals first
    | exact move_up_inv app hinv
    | exact move_down_inv app hinv
    | exact confirm_if_selected_inv app _ hinv
    | exact open_new_stash_inv app hinv
    | exact start_search_inv app hinv
    | exact clear_search_inv app hinv
    | exact hinv

set_option maxHeartbeats 1600000 in
theorem handle_normal_inv (gw : Gateway) (app app2 : App) (key : KeyCode) (mods : KeyModifiers)
    (q : Bool) (h : handle_normal gw app key mods = .ok (app2, q)) (hinv : StateInv app) :
    StateInv app2 := by
  unfold handle_normal at h
  repeat' split at h
  all_goals try exact view_diff_ok_inv gw app app2 q h hinv
  all_goals try (rename_i c; exact normal_char_inv gw app app2 c q h hinv)
  all_goals obtain ⟨rfl, rfl⟩ := Prod.mk.inj (Except.ok.inj h)
  all_goals first
    | exact search_entry_key_inv app key hinv
    | exact move_up_inv app hinv
    | exact move_down_inv app hinv
    | exact confirm_if_selected_inv app _ hinv
    | exact hinv

set_option maxHeartbeats 1600000 in
theorem scroll_char_inv (app : App) (c : Char) (h : StateInv app) :
    StateInv (scroll_char app c) := by
  obtain ⟨h1, h2, h3⟩ := h
  unfold scroll_char
  repeat' split
  all_goals first
    | exact ⟨h1, h2, h3⟩
    | exact scroll_diff_up_inv app ⟨h1, h2, h3⟩
    | exact scroll_diff_down_inv app ⟨h1, h2, h3⟩

set_option maxHeartbeats 1600000 in
theorem handle_scroll_inv (app app2 : App) (key : KeyCode) (q : Bool)
    (h : handle_scroll app key = .ok (app2, q)) (hinv : StateInv app) : StateInv app2 := by
  unfold handle_scroll at h
  repeat' split at h
  all_goals obtain ⟨rfl, rfl⟩ := Prod.mk.inj (Except.ok.inj h)
  all_goals first
    | exact scroll_char_inv app _ hinv
    | exact scroll_diff_up_inv app hinv
    | exact scroll_diff_down_inv app hinv
    | exact iterate_inv scroll_diff_up scroll_diff_up_inv 20 app hinv
    | exact iterate_inv scroll_diff_down scroll_diff_down_inv 20 app hinv
    | exact hinv

theorem confirm_run_inv (gw : Gateway) (app app2 : App) (action : ConfirmAction)
    (nm : String) (q : Bool) (h : confirm_run gw app action nm = .ok (app2, q))
    (hinv : StateInv app) : StateInv app2 := by
  obtain ⟨h1, h2, h3⟩ := hinv
  unfold confirm_run at h
  repeat' split at h
  all_goals try exact Except.noConfusion h
  all_goals obtain ⟨rfl, rfl⟩ := Prod.mk.inj (Except.ok.inj h)
  · rename_i a heq
    obtain ⟨g1, gc, gs, _⟩ := reload_ok_fields gw app a heq
    refine ⟨g1, fun he => ?_, fun hne => ?_⟩
    · rw [gc] at he
      rw [gs]
      exact h2 he
    · rw [gc] at hne
      rw [gs, gc]
      exact h3 hne
  · exact ⟨h1, h2, h3⟩

theorem confirm_yes_inv (gw : Gateway) (app app2 : App) (action : ConfirmAction) (q : Bool)
    (h : confirm_yes gw app action = .ok (app2, q)) (hinv : StateInv app) : StateInv app2 := by
  unfold confirm_yes at h
  split at h
  · exact confirm_run_inv gw app app2 action _ q h hinv
  · obtain ⟨rfl, rfl⟩ := Prod.mk.inj (Except.ok.inj h)
    exact hinv

set_option maxHeartbeats 1600000 in
theorem handle_confirm_inv (gw : Gateway) (app app2 : App) (key : KeyCode)
    (action : ConfirmAction) (q : Bool)
    (h : handle_confirm gw app key action = .ok (app2, q)) (hinv : StateInv app) :
    StateInv app2 := by
  obtain ⟨h1, h2, h3⟩ := hinv
  unfold handle_confirm at h
  repeat' split at h
  all_goals try exact confirm_yes_inv gw app app2 action q h ⟨h1, h2, h3⟩
  all_goals obtain ⟨rfl, rfl⟩ := Prod.mk.inj (Except.ok.inj h)
  all_goals exact ⟨h1, h2, h3⟩

theorem submit_new_stash_inv (gw : Gateway) (app app2 : App) (q : Bool)
    (h : submit_new_stash gw app = .ok (app2, q)) (hinv : StateInv app) : StateInv app2 := by
  obtain ⟨h1, h2, h3⟩ := hinv
  unfold submit_new_stash at h
  repeat' split at h
  all_goals try exact Except.noConfusion h
  all_goals obtain ⟨rfl, rfl⟩ := Prod.mk.inj (Except.ok.inj h)
  · exact ⟨h1, h2, h3⟩
  · rename_i a heq
    obtain ⟨g1, gc, gs, _⟩ := reload_ok_fields gw app a heq
    refine ⟨g1, fun he => ?_, fun hne => ?_⟩
    · rw [gc] at he
      rw [gs]
      exact h2 he
    · rw [gc] at hne
      rw [gs, gc]
      exact h3 hne
  · exact ⟨h1, h2, h3⟩

set_option maxHeartbeats 1600000 in
theorem handle_new_stash_inv (gw : Gateway) (app app2 : App) (key : KeyCode) (q : Bool)
    (h : handle_new_stash gw app key = .ok (app2, q)) (hinv : StateInv app) : StateInv app2 := by
  obtain ⟨h1, h2, h3⟩ := hinv
  unfold handle_new_stash at h
  repeat' split at h
  all_goals try exact submit_new_stash_inv gw app app2 q h ⟨h1, h2, h3⟩
  all_goals obtain ⟨rfl, rfl⟩ := Prod.mk.inj (Except.ok.inj h)
  all_goals exact ⟨h1, h2, h3⟩

theorem dispatch_inv (gw : Gateway) (app app2 : App) (key : KeyEvent) (q : Bool)
    (h : dispatch gw app key = .ok (app2, q)) (hinv : StateInv app) : StateInv app2 := by
  unfold dispatch at h
  split at h
  · exact handle_normal_inv gw app app2 key.code key.modifiers q h hinv
  · exact handle_scroll_inv app app2 key.code q h hinv
  · exact handle_scroll_inv app app2 key.code q h hinv
  · exact handle_confirm_inv gw app app2 key.code _ q h hinv
  · exact handle_new_stash_inv gw app app2 key.code q h hinv
  · obtain ⟨rfl, rfl⟩ := Prod.mk.inj (Except.ok.inj h)
    obtain ⟨h1, h2, h3⟩ := hinv
    exact ⟨h1, h2, h3⟩

theorem handle_events_inv (gw : Gateway) (app app2 : App) (key : KeyEvent) (q : Bool)
    (h : handle_events gw app key = .ok (app2, q)) (hinv : StateInv app) : StateInv app2 := by
  unfold handle_events at h
  split at h
  · rename_i a b heq
    obtain ⟨rfl, rfl⟩ := Prod.mk.inj (Except.ok.inj h)
    exact dispatch_inv gw app a key b heq hinv
  · exact Except.noConfusion h

theorem app_new_inv (gw : Gateway) (app : App) (h : App.new gw = .ok app) : StateInv app := by
  unfold App.new at h
  split at h
  · exact Except.noConfusion h
  · injection h with h
    subst h
    exact ⟨fun hne => List.length_pos.mpr hne, fun _ => rfl, fun hne => absurd rfl hne⟩

/-- Every state the event loop reaches satisfies the dispatcher invariant. -/
theorem reachable_inv (app : App) (h : Reachable app) : StateInv app := by
  induction h with
  | init gw a ha => exact app_new_inv gw a ha
  | step gw key a a2 q _ hstep ih => exact handle_events_inv gw a a2 key q hstep ih

end InvariantProofs

/-! ### Small facts about the search primitive -/

theorem containsSubL_nil (l : List Char) : containsSubL [] l = true := by
  cases l <;> simp [containsSubL, startsWithL]

theorem strContains_empty (s : String) : strContains s "" = true := by
  show containsSubL [] s.toList = true
  exact containsSubL_nil s.toList

/-! ### Claims -/

/-- C10: the dispatcher ignores the modifier flags of a key event — for one
key code and any two modifier sets, the dispatched result (state mutation,
mode transition, quit flag) is identical; likewise for the Normal-mode
handler which receives but never reads the modifiers. -/
theorem C10_modifier_independence (gw : Gateway) (app : App) (code : KeyCode)
    (m1 m2 : KeyModifiers) :
    handle_events gw app ⟨code, m1⟩ = handle_events gw app ⟨code, m2⟩ ∧
    handle_normal gw app code m1 = handle_normal gw app code m2 :=
  ⟨rfl, rfl⟩

/-- C1 (code evaluated at the failing input): in Normal mode with search
inactive, `handle_normal` reports quit=true for `q` and Escape, but
`handle_events` — the function the `run` loop consults — discards that flag
and returns false, so the loop's break is never taken. -/
theorem C1_quit_flag_discarded :
    handle_normal noGw baseApp (KeyCode.Char 'q') m0 = .ok (baseApp, true) ∧
    handle_normal noGw baseApp KeyCode.Esc m0 = .ok (baseApp, true) ∧
    handle_events noGw baseApp ⟨KeyCode.Char 'q', m0⟩ = .ok (baseApp, false) ∧
    handle_events noGw baseApp ⟨KeyCode.Esc, m0⟩ = .ok (baseApp, false) :=
  ⟨rfl, rfl, rfl, rfl⟩

/-- C7 (amended): when `selected` is within the filtered view, `move_up` and
`move_down` keep it within `[0, length-1]`; on an empty view `move_down` is
a no-op, and `move_up` is a no-op exactly when `selected = 0` — any positive
`selected` is decremented regardless of the view.  Neither changes the view. -/
theorem C7_move_selection (app : App) :
    (app.selected < (filtered_stashes app).length →
      (move_up app).selected < (filtered_stashes app).length ∧
      (move_down app).selected < (filtered_stashes app).length) ∧
    (filtered_stashes app = [] → move_down app = app) ∧
    (app.selected = 0 → move_up app = app) ∧
    (0 < app.selected → (move_up app).selected = app.selected - 1) ∧
    filtered_stashes (move_up app) = filtered_stashes app ∧
    filtered_stashes (move_down app) = filtered_stashes app := by
  refine ⟨fun hlt => ⟨?_, ?_⟩, fun hemp => ?_, fun h0 => ?_, fun hpos => ?_, ?_, ?_⟩
  · unfold move_up
    split
    · show app.selected - 1 < (filtered_stashes app).length
      omega
    · exact hlt
  · unfold move_down
    split
    · rename_i hc
      show app.selected + 1 < (filtered_stashes app).length
      omega
    · exact hlt
  · unfold move_down
    rw [if_neg]
    rw [hemp]
    simp
  · unfold move_up
    rw [if_neg]
    omega
  · unfold move_up
    rw [if_pos hpos]
  · unfold move_up
    split <;> rfl
  · unfold move_down
    split <;> rfl

/-- C7 witness: from a two-record view with the second record selected, both
moves stay within bounds. -/
theorem C7_move_selection_witness :
    (move_up c7wApp).selected < (filtered_stashes c7wApp).length ∧
    (move_down c7wApp).selected < (filtered_stashes c7wApp).length :=
  (C7_move_selection c7wApp).1 (by decide)

/-- C7 counterexample: on an empty filtered view with a stale positive
selection, `move_up` is not a no-op — it decrements the selection. -/
theorem C7_move_up_empty_cex :
    filtered_stashes c7App = [] ∧ move_up c7App ≠ c7App ∧ (move_up c7App).selected = 4 :=
  ⟨by decide, by decide, by decide⟩

/-- C4 (amended): a successful `reload` replaces the collection; a selection
past a non-empty new collection is clamped to `length - 1`, one within
bounds is kept, and when the collection became empty the selection is left
unchanged (not reset to 0).  A failed listing is reported without touching
the state (the error is returned before any field is written). -/
theorem C4_reload_selected (gw : Gateway) (app app2 : App) (l : List Stash) (e : String) :
    (gw.list_stashes = .ok l → reload gw app = .ok app2 →
      app2.stashes = l ∧
      (l ≠ [] → l.length ≤ app.selected → app2.selected = l.length - 1) ∧
      (l ≠ [] → app.selected < l.length → app2.selected = app.selected) ∧
      (l = [] → app2.selected = app.selected)) ∧
    (gw.list_stashes = .error e → reload gw app = .error e) := by
  constructor
  · intro hl hr
    unfold reload at hr
    rw [hl] at hr
    split at hr
    · rename_i heq
      exact Except.noConfusion heq
    · rename_i l2 heq
      injection heq with heq
      subst heq
      split at hr
      · rename_i hcond
        injection hr with hr
        subst hr
        exact ⟨rfl, fun _ _ => rfl, fun _ hlt => absurd hcond.1 (Nat.not_le.mpr hlt),
          fun hemp => absurd hcond.2 (by simp [hemp])⟩
      · rename_i hcond
        injection hr with hr
        subst hr
        exact ⟨rfl, fun hne hle => absurd ⟨hle, hne⟩ hcond, fun _ _ => rfl, fun _ => rfl⟩
  · intro he
    unfold reload
    rw [he]

/-- C4 witness: a selection of 5 against a one-record reload is clamped to 0. -/
theorem C4_reload_selected_witness :
    reload gwListOne app5 = .ok app5After ∧ app5After.selected = 0 ∧
    app5After.stashes = [wS] := by
  have h := (C4_reload_selected gwListOne app5 app5After [wS] "z").1 rfl rfl
  refine ⟨rfl, ?_, h.1⟩
  rw [h.2.1 (by decide) (by decide)]
  rfl

/-- C4 counterexample: reloading into an empty collection leaves the stale
selection 3 in place — it is not reset to 0 as the claim states. -/
theorem C4_reload_empty_cex :
    reload gwEmptyList c4App = .ok c4After ∧ c4After.stashes = [] ∧
    c4After.selected = 3 ∧ ¬ c4After.selected = 0 :=
  ⟨rfl, rfl, rfl, by decide⟩

/-- C5: the filtered view is exactly the filter of the collection by
"lowercased short message or lowercased branch contains the lowercased
query" — all records when the query is empty — and it is a sublist of the
collection, so the original relative order is preserved. -/
theorem C5_filtered_view (app : App) :
    filtered_stashes app =
      app.stashes.filter (fun s =>
        strContains (toLowerS s.short_msg) (toLowerS app.search_query) ||
        strContains (toLowerS s.branch) (toLowerS app.search_query)) ∧
    (app.search_query = "" → filtered_stashes app = app.stashes) ∧
    (filtered_stashes app).Sublist app.stashes := by
  refine ⟨?_, fun hq => ?_, ?_⟩
  · unfold filtered_stashes
    split
    · rename_i hq
      rw [hq]
      refine (List.filter_eq_self.mpr ?_).symm
      intro s _
      simp [strContains_empty, toLowerS]
    · rfl
  · unfold filtered_stashes
    rw [if_pos hq]
  · unfold filtered_stashes
    split
    · exact List.Sublist.refl _
    · exact List.filter_sublist _

/-- C5 witness: with an empty query the view is the whole collection. -/
theorem C5_filtered_view_witness : filtered_stashes baseApp = baseApp.stashes :=
  (C5_filtered_view baseApp).2.1 rfl

/-- C8: in Confirm mode with a record selected, when the pending gateway
call fails with description d, `y` and Enter both leave the state unchanged
except for the mode, which becomes `Message ("Error: " ++ d)`; `n` and
Escape return to Normal whatever the gateway would answer (no call is made:
the result is the same for every gateway). -/
theorem C8_confirm_error (gw gw2 : Gateway) (app : App) (stash : Stash)
    (action : ConfirmAction) (d : String)
    (hsel : selected_stash app = some stash)
    (herr : confirm_result gw action stash.name = .error d) :
    handle_confirm gw app (KeyCode.Char 'y') action =
      .ok ({ app with mode := Mode.Message ("Error: " ++ d) }, false) ∧
    handle_confirm gw app KeyCode.Enter action =
      .ok ({ app with mode := Mode.Message ("Error: " ++ d) }, false) ∧
    handle_confirm gw2 app (KeyCode.Char 'n') action =
      .ok ({ app with mode := Mode.Normal }, false) ∧
    handle_confirm gw2 app KeyCode.Esc action =
      .ok ({ app with mode := Mode.Normal }, false) := by
  have hyes : confirm_yes gw app action =
      .ok ({ app with mode := Mode.Message ("Error: " ++ d) }, false) := by
    unfold confirm_yes
    rw [hsel]
    show confirm_run gw app action stash.name = _
    unfold confirm_run
    rw [herr] <;> try rfl
  exact ⟨hyes, hyes, rfl, rfl⟩

/-- C8 witness: the spec's scenario — a failing drop with description
`not found` produces `Message "Error: not found"` and nothing else moves. -/
theorem C8_confirm_error_witness :
    selected_stash baseApp = some wS ∧
    handle_confirm gwDropFail baseApp (KeyCode.Char 'y') ConfirmAction.Drop =
      .ok ({ baseApp with mode := Mode.Message "Error: not found" }, false) :=
  ⟨rfl,
    (C8_confirm_error gwDropFail noGw baseApp wS ConfirmAction.Drop "not found" rfl rfl).1⟩

/-- C2 (amended): apply, pop, drop and create failures surface as
`Message ("Error: " ++ e)` with every other field unchanged; but diff-load,
file-list-load and reload failures propagate out of the dispatcher as
errors (the `run` loop's `?` operator then ends the event loop), instead of
becoming a message. -/
theorem C2_gateway_errors (gwA gwP gwD gwC gwL gwF gwR : Gateway) (app : App)
    (stash : Stash) (e : String) (mods : KeyModifiers)
    (hsel : selected_stash app = some stash) (hsearch : app.searching = false) :
    (gwA.apply_stash stash.name = .error e →
      handle_confirm gwA app (KeyCode.Char 'y') ConfirmAction.Apply =
        .ok ({ app with mode := Mode.Message ("Error: " ++ e) }, false)) ∧
    (gwP.pop_stash stash.name = .error e →
      handle_confirm gwP app KeyCode.Enter ConfirmAction.Pop =
        .ok ({ app with mode := Mode.Message ("Error: " ++ e) }, false)) ∧
    (gwD.drop_stash stash.name = .error e →
      handle_confirm gwD app (KeyCode.Char 'y') ConfirmAction.Drop =
        .ok ({ app with mode := Mode.Message ("Error: " ++ e) }, false)) ∧
    (gwC.push_stash (trimS app.new_stash_input) app.new_stash_untracked = .error e →
      trimS app.new_stash_input ≠ "" →
      handle_new_stash gwC app KeyCode.Enter =
        .ok ({ app with mode := Mode.Message ("Error: " ++ e) }, false)) ∧
    (gwL.stash_diff stash.name = .error e →
      handle_normal gwL app (KeyCode.Char 'd') mods = .error e) ∧
    (gwF.stash_files stash.name = .error e →
      handle_normal gwF app (KeyCode.Char 'f') mods = .error e) ∧
    (gwR.drop_stash stash.name = .ok () → gwR.list_stashes = .error e →
      handle_confirm gwR app KeyCode.Enter ConfirmAction.Drop = .error e) := by
  refine ⟨fun he => ?_, fun he => ?_, fun he => ?_, fun he hne => ?_, fun he => ?_,
    fun he => ?_, fun hok he => ?_⟩
  · show confirm_yes gwA app ConfirmAction.Apply = _
    unfold confirm_yes
    rw [hsel]
    show confirm_run gwA app ConfirmAction.Apply stash.name = _
    unfold confirm_run confirm_result
    rw [he] <;> try rfl
  · show confirm_yes gwP app ConfirmAction.Pop = _
    unfold confirm_yes
    rw [hsel]
    show confirm_run gwP app ConfirmAction.Pop stash.name = _
    unfold confirm_run confirm_result
    rw [he] <;> try rfl
  · show confirm_yes gwD app ConfirmAction.Drop = _
    unfold confirm_yes
    rw [hsel]
    show confirm_run gwD app ConfirmAction.Drop stash.name = _
    unfold confirm_run confirm_result
    rw [he] <;> try rfl
  · show submit_new_stash gwC app = _
    unfold submit_new_stash
    rw [if_neg hne, he] <;> try rfl
  · have hld : load_diff gwL app = Except.error e := by
      unfold load_diff
      rw [hsel]
      show load_diff_fetch gwL app stash.name = _
      unfold load_diff_fetch
      rw [he] <;> try rfl
    unfold handle_normal
    rw [hsearch]
    show view_diff gwL app = Except.error e
    unfold view_diff
    rw [hsel, hld] <;> try rfl
  · have hlf : load_files gwF app = Except.error e := by
      unfold load_files
      rw [hsel]
      show load_files_fetch gwF app stash.name = _
      unfold load_files_fetch
      rw [he] <;> try rfl
    unfold handle_normal
    rw [hsearch]
    show view_files gwF app = Except.error e
    unfold view_files
    rw [hsel, hlf] <;> try rfl
  · show confirm_yes gwR app ConfirmAction.Drop = Except.error e
    unfold confirm_yes
    rw [hsel]
    show confirm_run gwR app ConfirmAction.Drop stash.name = _
    unfold confirm_run confirm_result reload
    rw [hok, he] <;> try rfl

/-- C2 witness: each branch of the amended claim at a concrete state — the
mutation failures become messages, the diff-load and reload failures escape
as errors. -/
theorem C2_gateway_errors_witness :
    selected_stash nsApp = some wS ∧ nsApp.searching = false ∧
    handle_confirm gwApplyFail nsApp (KeyCode.Char 'y') ConfirmAction.Apply =
      .ok ({ nsApp with mode := Mode.Message "Error: boom" }, false) ∧
    handle_new_stash gwPushFail nsApp KeyCode.Enter =
      .ok ({ nsApp with mode := Mode.Message "Error: boom" }, false) ∧
    handle_normal gwDiffFail nsApp (KeyCode.Char 'd') m0 = .error "boom" ∧
    handle_confirm gwReloadFail nsApp KeyCode.Enter ConfirmAction.Drop = .error "no" := by
  have h := C2_gateway_errors gwApplyFail gwPopFail gwDropBoom gwPushFail gwDiffFail
    gwFilesFail gwReloadFail nsApp wS "boom" m0 rfl rfl
  have h2 := C2_gateway_errors gwApplyFail gwPopFail gwDropBoom gwPushFail gwDiffFail
    gwFilesFail gwReloadFail nsApp wS "no" m0 rfl rfl
  exact ⟨rfl, rfl, h.1 rfl, h.2.2.2.1 rfl (by decide), h.2.2.2.2.1 rfl,
    h2.2.2.2.2.2.2 rfl rfl⟩

/-- C2 counterexample: a diff-load failure does not become a message — the
dispatcher returns the error itself (which the event loop's `?` turns into
process exit), refuting the claim that every gateway failure transitions the
mode to `Message ("Error: " ++ description)`. -/
theorem C2_diff_error_cex :
    handle_events gwDiffFail baseApp ⟨KeyCode.Enter, m0⟩ = .error "boom" := rfl

/-- C3 (amended): in every reachable state the selection is below the
collection size whenever the collection is non-empty — hence, with an empty
query, a valid index into the (equal) filtered view; with a non-empty query
the selection can exceed the filtered view (see the counterexample), but
`selected_stash` then returns `none` instead of faulting, as it does on an
empty view. -/
theorem C3_selected_bounds (app : App) (h : Reachable app) :
    (app.stashes ≠ [] → app.selected < app.stashes.length) ∧
    (app.search_query = "" → app.stashes ≠ [] →
      app.selected < (filtered_stashes app).length) ∧
    ((filtered_stashes app).length ≤ app.selected → selected_stash app = none) ∧
    (filtered_stashes app = [] → selected_stash app = none) := by
  obtain ⟨h1, _, _⟩ := reachable_inv app h
  refine ⟨h1, fun hq hne => ?_, fun hle => ?_, fun hemp => ?_⟩
  · unfold filtered_stashes
    rw [if_pos hq]
    exact h1 hne
  · unfold selected_stash
    exact List.getElem?_eq_none hle
  · unfold selected_stash
    rw [hemp]
    simp

/-- C3 witness: the invariant applied to a freshly initialised one-record
state. -/
theorem C3_selected_bounds_witness :
    dInit.selected < (filtered_stashes dInit).length :=
  (C3_selected_bounds dInit (Reachable.init gwD dInit rfl)).2.1 rfl (by decide)

/-- C3 counterexample: a dispatcher-reachable state (searching for `a`,
selecting the second match, dropping it while the gateway also replaced the
other matching record) whose filtered view is non-empty while `selected`
equals its length — the claimed invariant fails with an active filter,
because `reload` clamps against the full collection only. -/
theorem C3_stale_selection_cex :
    Reachable st6 ∧ filtered_stashes st6 ≠ [] ∧
    ¬ st6.selected < (filtered_stashes st6).length := by
  refine ⟨?_, by decide, by decide⟩
  have r0 : Reachable st0 := Reachable.init gw1 st0 rfl
  have r1 : Reachable st1 := Reachable.step gw1 ⟨KeyCode.Char '/', m0⟩ st0 st1 false r0 rfl
  have r2 : Reachable st2 := Reachable.step gw1 ⟨KeyCode.Char 'a', m0⟩ st1 st2 false r1 rfl
  have r3 : Reachable st3 := Reachable.step gw1 ⟨KeyCode.Enter, m0⟩ st2 st3 false r2 rfl
  have r4 : Reachable st4 := Reachable.step gw1 ⟨KeyCode.Char 'j', m0⟩ st3 st4 false r3 rfl
  have r5 : Reachable st5 := Reachable.step gw1 ⟨KeyCode.Char 'x', m0⟩ st4 st5 false r4 rfl
  exact Reachable.step gw2 ⟨KeyCode.Char 'y', m0⟩ st5 st6 false r5 rfl

/-- Iterating `scroll_diff_down` never changes the buffer and drives the
scroll to `min (start + steps) (length - 1)`. -/
theorem scroll_down_iter (app : App)
    (hs : app.diff_scroll ≤ app.diff_content.length - 1) (n : Nat) :
    (scroll_diff_down^[n] app).diff_content = app.diff_content ∧
    (scroll_diff_down^[n] app).diff_scroll =
      min (app.diff_scroll + n) (app.diff_content.length - 1) := by
  induction n with
  | zero =>
    simpa using (Nat.min_eq_left hs).symm
  | succ k ih =>
    obtain ⟨hc, hv⟩ := ih
    rw [Function.iterate_succ_apply']
    set b := scroll_diff_down^[k] app with hb
    unfold scroll_diff_down
    split
    · rename_i hlt
      rw [hc] at hlt
      refine ⟨?_, ?_⟩
      · show b.diff_content = app.diff_content
        exact hc
      · show b.diff_scroll + 1 = _
        omega
    · rename_i hlt
      rw [hc] at hlt
      exact ⟨hc, by omega⟩

/-- C9: in every reachable state the scroll offset is 0 on an empty buffer
and at most `length - 1` on a non-empty one; from offset 0, applying
`scroll_diff_down` once per buffer line lands exactly on `length - 1`, and
no number of applications ever exceeds that bound. -/
theorem C9_scroll_bounds (app : App) (h : Reachable app) :
    (app.diff_content = [] → app.diff_scroll = 0) ∧
    (app.diff_content ≠ [] → app.diff_scroll ≤ app.diff_content.length - 1) ∧
    (app.diff_scroll = 0 →
      (scroll_diff_down^[app.diff_content.length] app).diff_scroll =
        app.diff_content.length - 1) ∧
    (∀ n : Nat, (scroll_diff_down^[n] app).diff_scroll ≤ app.diff_content.length - 1) := by
  obtain ⟨_, h2, h3⟩ := reachable_inv app h
  have hs : app.diff_scroll ≤ app.diff_content.length - 1 := by
    by_cases hc : app.diff_content = []
    · rw [h2 hc]
      exact Nat.zero_le _
    · have := h3 hc
      omega
  refine ⟨h2, fun _ => hs, fun h0 => ?_, fun n => ?_⟩
  · have hiter := (scroll_down_iter app hs app.diff_content.length).2
    rw [h0] at hiter
    rw [hiter]
    omega
  · rw [(scroll_down_iter app hs n).2]
    omega

/-- C9 witness: a reachable state with a freshly loaded two-line diff —
scrolling down twice from 0 stops at offset 1. -/
theorem C9_scroll_bounds_witness :
    (scroll_diff_down^[dView.diff_content.length] dView).diff_scroll =
      dView.diff_content.length - 1 :=
  (C9_scroll_bounds dView
    (Reachable.step gwD ⟨KeyCode.Char 'd', m0⟩ dInit dView false
      (Reachable.init gwD dInit rfl) rfl)).2.2.1 rfl

/-! ### Branch and short-message extraction -/

theorem stripPre_append (p r : List Char) : stripPre p (p ++ r) = some r := by
  induction p with
  | nil => rfl
  | cons x xs ih => simp [stripPre, ih]

theorem splitFirst_append (c : Char) (pre rest : List Char) (h : c ∉ pre) :
    splitFirst c (pre ++ c :: rest) = pre := by
  induction pre with
  | nil => simp [splitFirst]
  | cons x xs ih =>
    rw [List.cons_append]
    unfold splitFirst
    have hxc : ¬ x = c := fun hxc => h (List.mem_cons.mpr (Or.inl hxc.symm))
    rw [if_neg hxc, ih (fun hc => h (List.mem_cons_of_mem x hc))]

theorem stripPre_wip_of_On (l : List Char) : stripPre wipPre ('O' :: l) = none := by
  simp only [wipPre, stripPre]
  rw [if_neg]
  decide

theorem afterSep_append (a b : List Char) (h : afterSep a = none) :
    afterSep (a ++ ':' :: ' ' :: b) = some b := by
  induction a with
  | nil => simp [afterSep, startsWithL]
  | cons x xs ih =>
    simp only [afterSep] at h
    rw [List.cons_append]
    simp only [afterSep]
    split at h
    · exact Option.noConfusion h
    · rename_i hstart
      have hns : ¬ startsWithL (x :: (xs ++ ':' :: ' ' :: b)) (':' :: ' ' :: []) = true := by
        intro hstart2
        apply hstart
        cases xs with
        | nil => simp [startsWithL] at hstart2
        | cons y ys => simp_all [startsWithL]
      rw [if_neg hns]
      exact ih h

/-- C6: the branch of a stash message starting `"WIP on "` (resp. `"On "`)
is the text between that marker and the first colon, trimmed; a message with
neither marker gets the literal branch `"unknown"`.  The short message is
the part after the first `": "`, or the whole message when there is none. -/
theorem C6_message_parsing (pre rest msg a b : List Char)
    (hpre : ':' ∉ pre) (hwip : stripPre wipPre msg = none)
    (hon : stripPre onPre msg = none) (ha : afterSep a = none) :
    extractBranchL (wipPre ++ pre ++ ':' :: rest) = trimL pre ∧
    extractBranchL (onPre ++ pre ++ ':' :: rest) = trimL pre ∧
    extractBranchL msg = unknownBranch ∧
    shortMsgL (a ++ ':' :: ' ' :: b) = b ∧
    shortMsgL a = a := by
  refine ⟨?_, ?_, ?_, ?_, ?_⟩
  · unfold extractBranchL
    rw [List.append_assoc, stripPre_append]
    show trimL (splitFirst ':' (pre ++ ':' :: rest)) = _
    rw [splitFirst_append _ _ _ hpre]
  · unfold extractBranchL
    rw [List.append_assoc]
    rw [show onPre ++ (pre ++ ':' :: rest) = 'O' :: ('n' :: ' ' :: (pre ++ ':' :: rest))
      from rfl]
    rw [stripPre_wip_of_On]
    rw [show ('O' :: ('n' :: ' ' :: (pre ++ ':' :: rest))) = onPre ++ (pre ++ ':' :: rest)
      from rfl]
    rw [stripPre_append]
    show trimL (splitFirst ':' (pre ++ ':' :: rest)) = _
    rw [splitFirst_append _ _ _ hpre]
  · unfold extractBranchL
    rw [hwip]
    show (match stripPre onPre msg with
      | some s => trimL (splitFirst ':' s)
      | none => unknownBranch) = _
    rw [hon]
  · unfold shortMsgL
    rw [afterSep_append _ _ ha]
  · unfold shortMsgL
    rw [ha]

/-- C6 witness: the spec's three examples, namely the messages
`WIP on feature/x: abc123 msg`, `On main: cleanup` and `random text`. -/
theorem C6_message_parsing_witness :
    extractBranchL ("WIP on feature/x: abc123 msg".toList) = "feature/x".toList ∧
    shortMsgL ("WIP on feature/x: abc123 msg".toList) = "abc123 msg".toList ∧
    extractBranchL ("On main: cleanup".toList) = "main".toList ∧
    shortMsgL ("On main: cleanup".toList) = "cleanup".toList ∧
    extractBranchL ("random text".toList) = "unknown".toList ∧
    shortMsgL ("random text".toList) = "random text".toList := by
  have h1 := C6_message_parsing ("feature/x".toList) (" abc123 msg".toList)
    ("random text".toList) ("WIP on feature/x".toList) ("abc123 msg".toList)
    (by decide) (by decide) (by decide) (by decide)
  have h2 := C6_message_parsing ("main".toList) (" cleanup".toList)
    ("random text".toList) ("On main".toList) ("cleanup".toList)
    (by decide) (by decide) (by decide) (by decide)
  refine ⟨?_, ?_, ?_, ?_, ?_, ?_⟩
  · have e1 : "WIP on feature/x: abc123 msg".toList =
        wipPre ++ "feature/x".toList ++ ':' :: " abc123 msg".toList := by decide
    rw [e1, h1.1]
    decide
  · have e1 : "WIP on feature/x: abc123 msg".toList =
        "WIP on feature/x".toList ++ ':' :: ' ' :: "abc123 msg".toList := by decide
    rw [e1, h1.2.2.2.1]
  · have e1 : "On main: cleanup".toList =
        onPre ++ "main".toList ++ ':' :: " cleanup".toList := by decide
    rw [e1, h2.2.1]
    decide
  · have e1 : "On main: cleanup".toList =
        "On main".toList ++ ':' :: ' ' :: "cleanup".toList := by decide
    rw [e1, h2.2.2.2.1]
  · rw [h1.2.2.1]
    decide
  · have e1 : afterSep ("random text".toList) = none := by decide
    unfold shortMsgL
    rw [e1]
